import Mathlib

/-!
# Process table and mailbox core of the teaching kernel (`kernel.c`, `mbox.c`)

A shallow embedding of `search_pcb`, `stack_new`, `initialize_pcb`, `do_spawn`,
`do_wait` (kernel.c) and of `init_mbox`, `do_mbox_open`, `do_mbox_close`,
`do_mbox_is_full`, `do_mbox_send`, `do_mbox_recv`, `do_mbox_usage_count` (mbox.c).

Conventions.
* Global arrays (`pcb`, `MessageBoxen`) are lists; `a[i]` is `a.getD i default`
  and `a[i] = v` is `a.set i v`.  The array sizes `NUM_PCBS`, `MAX_MBOXEN`, and the
  constants `MAX_MBOX_LENGTH`, `MAX_MESSAGE_LENGTH`, `MBOX_NAME_LENGTH` come from
  `common.h`, which is not part of the sources at hand: they are parameters.
* `char` buffers are lists of byte values; a C string ends at its first `0` byte.
* `int` arithmetic on stored counters wraps to 32 bits (two-complement, the
  i386 target), `uint32_t` arithmetic is taken modulo `2^32`.
* A call that can suspend the caller (`semaphore_down`, `lock_acquire`) returns
  `none` when it blocks; `ASSERT` failures (system halt) are `none` as well.
-/

namespace Project4

/-! ## Loops and machine integers -/

/-- The loop `for (; i < n; i++) if (p i) return i;` with `k` iterations left,
currently at index `i`: the first index at which `p` holds, `none` when the loop
runs to its end. -/
def first_index_from (p : Nat → Bool) : Nat → Nat → Option Nat
  | 0, _ => none
  | k + 1, i => if p i then some i else first_index_from p k (i + 1)

/-- The loop `for (i = 0; i < n; i++) if (p i) return i;`. -/
def first_index (n : Nat) (p : Nat → Bool) : Option Nat :=
  first_index_from p n 0

/-- A value reduced to the range of a 32-bit `int`. -/
def wrap_int (x : Int) : Int :=
  (x + 2147483648) % 4294967296 - 2147483648

/-- A value reduced to the range of a `uint32_t`. -/
def wrap_uint32 (x : Int) : Int :=
  x % 4294967296

/-! ## kernel.c : the process table -/

/-- The values of `pcb[i].status`. -/
inductive status_t where
  | EXITED
  | FIRST_TIME
  | READY
  | BLOCKED
  deriving DecidableEq, Repr, Inhabited

/-- The values of `task_type`. -/
inductive task_type_t where
  | KERNEL_THREAD
  | PROCESS
  deriving DecidableEq, Repr, Inhabited

/-- What the loader returns: a 32-bit code address, `0` when the program is
unknown. -/
abbrev Process := Fin 4294967296

/-- The fields of `struct task_info` that `do_spawn` fills in. -/
structure task_info where
  entry_point : Int
  task_type : task_type_t
  deriving DecidableEq, Repr, Inhabited

/-- The fields of `pcb_t` that kernel.c reads or writes.  `condition` is the
wait queue of the embedded condition variable (the pids waiting on it);
`waiting_for_lock` is `none` for `NULL`. -/
structure pcb_t where
  pid : Int
  status : status_t
  priority : Int
  entry_point : Int
  task_type : task_type_t
  sleep_until : Int
  total_process_time : Int
  waiting_for_lock : Option Nat
  condition : List Nat
  ksp : Int
  usp : Int
  nested_count : Int
  entry_count : Int
  last_entry_time : Int
  deriving DecidableEq, Repr, Inhabited

/-- The kernel state `do_spawn` works on: the `pcb` array, the
`total_ready_priority` counter of the scheduler, the ready queue as the list of PCB
indices it links (head first), and the stack memory as the list of
`(address, word)` stores, latest first.  The counter is declared in scheduler.h,
which is not among the sources; it is taken to be a 32-bit `int` like the other
counters of the kernel, so `do_spawn` reduces its sum with `wrap_int`.  For values
from 0 below `2^31 - 1` a 32-bit unsigned counter gives the same sums. -/
structure KState where
  pcb : List pcb_t
  total_ready_priority : Int
  ready_queue : List Nat
  memory : List (Int × Int)
  deriving DecidableEq, Repr, Inhabited

/-- Modelled from the spec: `queue_put` of queue.h is not among the sources; the
spec says spawn "enqueues the PCB on the ready queue", a FIFO queue, so the node
goes to the tail. -/
def queue_put (queue : List Nat) (node : Nat) : List Nat :=
  queue ++ [node]

/-- Modelled from the spec: `condition_init` of sync.h is not among the sources;
a freshly initialised condition variable has nobody waiting on it. -/
def condition_init : List Nat :=
  []

/-- The function `search_pcb`: the first index whose slot is `EXITED`, else `-1`. -/
def search_pcb (NUM_PCBS : Nat) (pcb : List pcb_t) : Int :=
  match first_index NUM_PCBS (fun i => decide ((pcb.getD i default).status = status_t.EXITED)) with
  | some i => (i : Int)
  | none => -1

/-- The function `stack_new`.  `next_stack` is a `uint32_t`; the `int` expression
added to it wraps like every 32-bit computation of the target, so the sum is
taken modulo `2^32`.  `none` is the failed `ASSERT(next_stack <= 0x200000)`. -/
def stack_new (pid is_user : Int) : Option Int :=
  let next_stack : Int := 0x100000
  let next_stack : Int :=
    wrap_uint32 (next_stack + ((0x1000 * pid * 2) + (is_user * 0x1000) + 0x1000))
  if next_stack ≤ 0x200000 then some next_stack else none

/-- The function `initialize_pcb`, on the PCB `p` points to and the stack memory.
`first_entry` is the address of the trampoline.  `task_type` has two values, so
the `default: ASSERT(FALSE)` arm of the switch has no counterpart. -/
def initialize_pcb (first_entry : Int) (memory : List (Int × Int)) (p : pcb_t)
    (pid : Int) (ti : task_info) : Option (pcb_t × List (Int × Int)) :=
  let p := { p with entry_point := ti.entry_point }
  let p := { p with pid := pid }
  let p := { p with task_type := ti.task_type }
  let p := { p with priority := 1 }
  let p := { p with status := status_t.FIRST_TIME }
  let p := { p with sleep_until := 0 }
  let p := { p with total_process_time := 0 }
  let p := { p with waiting_for_lock := none }
  let p := { p with condition := condition_init }
  let switched : Option pcb_t :=
    match ti.task_type with
    | task_type_t.KERNEL_THREAD =>
      match stack_new pid 0 with
      | none => none
      | some k => some { p with ksp := k, nested_count := 1 }
    | task_type_t.PROCESS =>
      match stack_new pid 0 with
      | none => none
      | some k =>
        match stack_new pid 1 with
        | none => none
        | some u => some { p with ksp := k, usp := u, nested_count := 0 }
  match switched with
  | none => none
  | some p =>
    -- *--p->ksp = (uint32_t) & first_entry;
    let p := { p with ksp := p.ksp - 4 }
    some (p, (p.ksp, first_entry) :: memory)

/-- The function `do_spawn`: the returned code and the kernel state after the
call; `none` when an assertion of `stack_new` halts the system.  `ramdisk_find`
is the loader (ramdisk.h), a parameter.  The leading `asm("xchg %bx, %bx")`
exchanges a register with itself and has no counterpart here. -/
def do_spawn (NUM_PCBS : Nat) (first_entry : Int) (ramdisk_find : List Nat → Process)
    (s : KState) (filename : List Nat) : Option (Int × KState) :=
  let pcb_idx := search_pcb NUM_PCBS s.pcb
  if pcb_idx = -1 then
    some (-2, s)
  else
    let rdisk_find_status := ramdisk_find filename
    if rdisk_find_status = 0 then
      some (-1, s)
    else
      let ti : task_info :=
        { entry_point := (rdisk_find_status.val : Int), task_type := task_type_t.PROCESS }
      match initialize_pcb first_entry s.memory (s.pcb.getD pcb_idx.toNat default) pcb_idx ti with
      | none => none
      | some (p, memory) =>
        let pcb := s.pcb.set pcb_idx.toNat p
        -- total_ready_priority += pcb[pcb_idx].priority;
        let total_ready_priority :=
          wrap_int (s.total_ready_priority + (pcb.getD pcb_idx.toNat default).priority)
        let ready_queue := queue_put s.ready_queue pcb_idx.toNat
        some (pcb_idx,
          { pcb := pcb, total_ready_priority := total_ready_priority,
            ready_queue := ready_queue, memory := memory })

/-- What `do_wait` does to its collaborators, in order. -/
inductive wait_call where
  | lock_init
  | condition_wait (pcb_index : Int)
  | printf
  deriving DecidableEq, Repr

/-- The function `do_wait`: the collaborator calls it makes, in order, and the
value it returns once `condition_wait` has let it continue.  It reads nothing of
the table: `&(pcb[pid].condition)` is address arithmetic on `pid`. -/
def do_wait (pid : Int) : List wait_call × Int :=
  ([wait_call.lock_init, wait_call.condition_wait pid, wait_call.printf], 0)

/-! ## util.c and sync.c : the collaborators of mbox.c -/

/-- The bytes of a C string: those before the first `0` byte.  A buffer holding
no `0` byte is read to its end. -/
def c_str (s : List Nat) : List Nat :=
  s.takeWhile (fun b => decide (b ≠ 0))

/-- Modelled from the spec: `strlen` is declared in util.h and defined in util.c,
which is not among the sources; the length of a C string is the number of bytes
before its terminator. -/
def strlen (s : List Nat) : Nat :=
  (c_str s).length

/-- Modelled from the spec: `same_string` is declared in util.h and defined in
util.c, which is not among the sources; the spec says "name comparison is
exact-match, case-sensitive", so two buffers are the same string when the bytes
before their terminators agree. -/
def same_string (s1 s2 : List Nat) : Bool :=
  decide (c_str s1 = c_str s2)

/-- Modelled from the spec: `bcopy` is declared in util.h and defined in util.c,
which is not among the sources.  `source` and `destin` are the memory from the
two pointers onwards; the first `size` bytes of `destin` are replaced by the first
`size` bytes of `source`, nothing else is touched. -/
def bcopy (source destin : List Nat) (size : Nat) : List Nat :=
  source.take size ++ destin.drop size

/-- Modelled from the spec: `semaphore_t` of sync.h is not among the sources; a
counting semaphore tracks the available units. -/
structure semaphore_t where
  value : Int
  deriving DecidableEq, Repr, Inhabited

/-- Modelled from the spec: `semaphore_init(&s, value)` of sync.h. -/
def semaphore_init (value : Int) : semaphore_t :=
  { value := value }

/-- Modelled from the spec: `semaphore_down` of sync.h; "down blocks at zero",
otherwise it takes one unit.  `none` is the caller blocking. -/
def semaphore_down (s : semaphore_t) : Option semaphore_t :=
  if 0 < s.value then some { value := s.value - 1 } else none

/-- Modelled from the spec: `semaphore_up` of sync.h; "up increments". -/
def semaphore_up (s : semaphore_t) : semaphore_t :=
  { value := s.value + 1 }

/-- Modelled from the spec: `lock_t` of sync.h is not among the sources; a
mutual-exclusion lock is held or free. -/
structure lock_t where
  held : Bool
  deriving DecidableEq, Repr, Inhabited

/-- Modelled from the spec: `lock_init` of sync.h; a new lock is free. -/
def lock_init : lock_t :=
  { held := false }

/-- Modelled from the spec: `lock_acquire` of sync.h; `none` is the caller
blocking on a held lock. -/
def lock_acquire (l : lock_t) : Option lock_t :=
  if l.held then none else some { held := true }

/-- Modelled from the spec: `lock_release` of sync.h. -/
def lock_release (_l : lock_t) : lock_t :=
  { held := false }

/-! ## mbox.c : the mailbox table -/

/-- The struct `MessageBox`.  `name` is `char name[MBOX_NAME_LENGTH]`; `messages`
is the array `Message messages[BUFFER_LENGTH]` as the bytes it occupies, cell `k`
being the bytes `k * MAX_MESSAGE_LENGTH` up to `(k + 1) * MAX_MESSAGE_LENGTH`;
`end_` is the field `end`. -/
structure MessageBox where
  name : List Nat
  usage_count : Int
  messages : List Nat
  start : Int
  end_ : Int
  full_count : semaphore_t
  empty_count : semaphore_t
  lock : lock_t
  deriving DecidableEq, Repr, Inhabited

/-- The macro `BUFFER_LENGTH`. -/
def BUFFER_LENGTH (MAX_MBOX_LENGTH : Nat) : Nat :=
  MAX_MBOX_LENGTH + 1

/-- The array `MessageBoxen` before `init_mbox` runs: an object of static storage
duration, so every byte of it is zero. -/
def MessageBoxen_static (MAX_MBOXEN MAX_MBOX_LENGTH MAX_MESSAGE_LENGTH MBOX_NAME_LENGTH : Nat) :
    List MessageBox :=
  List.replicate MAX_MBOXEN
    { name := List.replicate MBOX_NAME_LENGTH 0
      usage_count := 0
      messages := List.replicate (BUFFER_LENGTH MAX_MBOX_LENGTH * MAX_MESSAGE_LENGTH) 0
      start := 0
      end_ := 0
      full_count := { value := 0 }
      empty_count := { value := 0 }
      lock := { held := false } }

/-- The body of the loop of `init_mbox` for one `i`. -/
def init_mbox_entry (MAX_MBOX_LENGTH : Nat) (MessageBoxen : List MessageBox) (i : Nat) :
    List MessageBox :=
  let mb := MessageBoxen.getD i default
  MessageBoxen.set i
    { mb with
      usage_count := 0
      start := 0
      end_ := 0
      full_count := semaphore_init 0
      empty_count := semaphore_init MAX_MBOX_LENGTH
      lock := lock_init }

/-- The function `init_mbox`, on the table as it was found: names and message
bytes are left as they were. -/
def init_mbox (MAX_MBOXEN MAX_MBOX_LENGTH : Nat) (MessageBoxen : List MessageBox) :
    List MessageBox :=
  (List.range MAX_MBOXEN).foldl (init_mbox_entry MAX_MBOX_LENGTH) MessageBoxen

/-- The function `do_mbox_open`: the returned id (or `-1`) and the table after the
call.  The name buffer of an entry is a list of its own, so this follows the code
for a requested name shorter than the buffers (`strlen(name) < MBOX_NAME_LENGTH`),
where `same_string` and `bcopy` stay inside `name[MBOX_NAME_LENGTH]`; what the
code does to the fields behind the buffer for a longer name is not described. -/
def do_mbox_open (MAX_MBOXEN : Nat) (MessageBoxen : List MessageBox) (name : List Nat) :
    Int × List MessageBox :=
  match first_index MAX_MBOXEN
      (fun i => same_string (MessageBoxen.getD i default).name name) with
  | some i =>
    let mb := MessageBoxen.getD i default
    ((i : Int), MessageBoxen.set i { mb with usage_count := wrap_int (mb.usage_count + 1) })
  | none =>
    match first_index MAX_MBOXEN
        (fun i => decide ((MessageBoxen.getD i default).usage_count = 0)) with
    | some i =>
      let mb := MessageBoxen.getD i default
      let n := strlen name
      let mb := { mb with name := bcopy name mb.name n }
      ((i : Int), MessageBoxen.set i { mb with usage_count := wrap_int (mb.usage_count + 1) })
    | none => (-1, MessageBoxen)

/-- The function `do_mbox_close`.  As the comments of mbox.c allow, `mbox` is an
index of the table. -/
def do_mbox_close (MAX_MBOX_LENGTH : Nat) (MessageBoxen : List MessageBox) (mbox : Nat) :
    List MessageBox :=
  let mb := MessageBoxen.getD mbox default
  let MessageBoxen := MessageBoxen.set mbox { mb with usage_count := wrap_int (mb.usage_count - 1) }
  if (MessageBoxen.getD mbox default).usage_count = 0 then
    let mb := MessageBoxen.getD mbox default
    MessageBoxen.set mbox
      { mb with
        full_count := semaphore_init 0
        empty_count := semaphore_init MAX_MBOX_LENGTH }
  else
    MessageBoxen

/-- The function `do_mbox_is_full`; `%` of C truncates towards zero. -/
def do_mbox_is_full (MAX_MBOX_LENGTH : Nat) (MessageBoxen : List MessageBox) (mbox : Nat) :
    Bool :=
  let mb := MessageBoxen.getD mbox default
  decide (Int.tmod (wrap_int (mb.end_ + 1)) (BUFFER_LENGTH MAX_MBOX_LENGTH) = mb.start)

/-- The function `do_mbox_send`.  `MessageBox mb = MessageBoxen[mbox];` copies the
entry into a local variable and every later statement works on `mb`; the result is
the table after the call together with `mb` as it is when the function returns,
`none` when the caller blocks in `semaphore_down` or `lock_acquire`.  `msg` holds
the bytes at the pointer `msg`; `nbytes` and the cursor `end` are not negative in
any call the claims consider. -/
def do_mbox_send (MAX_MBOX_LENGTH MAX_MESSAGE_LENGTH : Nat) (MessageBoxen : List MessageBox)
    (mbox : Nat) (msg : List Nat) (nbytes : Nat) : Option (List MessageBox × MessageBox) :=
  let mb := MessageBoxen.getD mbox default
  match semaphore_down mb.empty_count with
  | none => none
  | some empty_count =>
    let mb := { mb with empty_count := empty_count }
    match lock_acquire mb.lock with
    | none => none
    | some lock =>
      let mb := { mb with lock := lock }
      -- bcopy(msg, mb.messages[mb.end].msg, nbytes);
      let cell := mb.end_.toNat * MAX_MESSAGE_LENGTH
      let mb := { mb with
        messages := mb.messages.take cell ++ bcopy msg (mb.messages.drop cell) nbytes }
      let mb := { mb with
        end_ := Int.tmod (wrap_int (mb.end_ + 1)) (BUFFER_LENGTH MAX_MBOX_LENGTH) }
      let mb := { mb with lock := lock_release mb.lock }
      let mb := { mb with full_count := semaphore_up mb.full_count }
      some (MessageBoxen, mb)

/-- The function `do_mbox_recv`, like `do_mbox_send` on a local copy `mb` of the
entry: the table after the call, `mb` at return, and the buffer `msg` of the
caller after the call. -/
def do_mbox_recv (MAX_MBOX_LENGTH MAX_MESSAGE_LENGTH : Nat) (MessageBoxen : List MessageBox)
    (mbox : Nat) (msg : List Nat) (nbytes : Nat) :
    Option (List MessageBox × MessageBox × List Nat) :=
  let mb := MessageBoxen.getD mbox default
  match semaphore_down mb.full_count with
  | none => none
  | some full_count =>
    let mb := { mb with full_count := full_count }
    match lock_acquire mb.lock with
    | none => none
    | some lock =>
      let mb := { mb with lock := lock }
      -- bcopy(mb.messages[mb.start].msg, msg, nbytes);
      let cell := mb.start.toNat * MAX_MESSAGE_LENGTH
      let msg := bcopy (mb.messages.drop cell) msg nbytes
      let mb := { mb with
        start := Int.tmod (wrap_int (mb.start + 1)) (BUFFER_LENGTH MAX_MBOX_LENGTH) }
      let mb := { mb with lock := lock_release mb.lock }
      let mb := { mb with empty_count := semaphore_up mb.empty_count }
      some (MessageBoxen, mb, msg)

/-- The function `do_mbox_usage_count`: the `int` field read as `unsigned int`. -/
def do_mbox_usage_count (MessageBoxen : List MessageBox) (mbox : Nat) : Int :=
  wrap_uint32 (MessageBoxen.getD mbox default).usage_count

/-- A call of the registry interface. -/
inductive mbox_call where
  | open_ (name : List Nat)
  | close (mbox : Nat)
  deriving DecidableEq, Repr

/-- Runs a sequence of `do_mbox_open` / `do_mbox_close` calls on a table; `none`
when a close names an id that is not open at that point (no entry of the table, or
one whose `usage_count` is not positive). -/
def run_calls (MAX_MBOXEN MAX_MBOX_LENGTH : Nat) :
    List MessageBox → List mbox_call → Option (List MessageBox)
  | t, [] => some t
  | t, mbox_call.open_ name :: cs =>
    run_calls MAX_MBOXEN MAX_MBOX_LENGTH (do_mbox_open MAX_MBOXEN t name).2 cs
  | t, mbox_call.close mbox :: cs =>
    if mbox < MAX_MBOXEN ∧ 0 < (t.getD mbox default).usage_count then
      run_calls MAX_MBOXEN MAX_MBOX_LENGTH (do_mbox_close MAX_MBOX_LENGTH t mbox) cs
    else
      none


/-! ## util.h : macros -/

/-- The macro `MAX` of util.h, `( (a) < (b) ? (a) : (b) )`, on integer arguments
without side effects. -/
def MAX (a b : Int) : Int :=
  if a < b then a else b

/-! ## Concrete states used to instantiate the theorems -/

/-- A table of two slots, both in use. -/
def kstate_full : KState :=
  { pcb := [{ (default : pcb_t) with status := status_t.READY },
            { (default : pcb_t) with pid := 1, status := status_t.BLOCKED }],
    total_ready_priority := 1, ready_queue := [0], memory := [] }

/-- A table of two slots whose second slot is free. -/
def kstate_free : KState :=
  { pcb := [{ (default : pcb_t) with status := status_t.READY },
            { (default : pcb_t) with pid := 1, status := status_t.EXITED }],
    total_ready_priority := 1, ready_queue := [0], memory := [] }

/-- A table of 129 slots whose only free slot is the last one, slot 128. -/
def kstate_slot_128 : KState :=
  { pcb := List.replicate 128 { (default : pcb_t) with status := status_t.READY } ++
      [{ (default : pcb_t) with status := status_t.EXITED }],
    total_ready_priority := 128, ready_queue := [], memory := [] }

/-- The state `kstate_free` with `total_ready_priority` at the largest `int`. -/
def kstate_counter_max : KState :=
  { kstate_free with total_ready_priority := 2147483647 }

/-- The table of a kernel configured with four mailboxes of capacity four, eight
byte messages and eight byte names, right after `init_mbox`. -/
def registry_fresh : List MessageBox :=
  init_mbox 4 4 (MessageBoxen_static 4 4 8 8)

/-- The table `registry_fresh` after `do_mbox_open("A")`. -/
def registry_A : List MessageBox :=
  (do_mbox_open 4 registry_fresh [65]).2

/-- The table `registry_fresh` after the mailboxes "A", "B", "C", "D" were opened. -/
def registry_ABCD : List MessageBox :=
  (do_mbox_open 4 (do_mbox_open 4 (do_mbox_open 4 registry_A [66]).2 [67]).2 [68]).2

/-- An entry of the zeroed table after `init_mbox` has run over it. -/
def fresh_box (MAX_MBOX_LENGTH MAX_MESSAGE_LENGTH MBOX_NAME_LENGTH : Nat) : MessageBox :=
  { name := List.replicate MBOX_NAME_LENGTH 0
    usage_count := 0
    messages := List.replicate (BUFFER_LENGTH MAX_MBOX_LENGTH * MAX_MESSAGE_LENGTH) 0
    start := 0
    end_ := 0
    full_count := semaphore_init 0
    empty_count := semaphore_init MAX_MBOX_LENGTH
    lock := lock_init }

/-- Calls `do_mbox_send` on mailbox `mbox` once for each `(msg, nbytes)` of the
list, in order: the table after the last call, `none` when a call blocks. -/
def send_all (MAX_MBOX_LENGTH MAX_MESSAGE_LENGTH : Nat) (MessageBoxen : List MessageBox)
    (mbox : Nat) : List (List Nat × Nat) → Option (List MessageBox)
  | [] => some MessageBoxen
  | (msg, nbytes) :: rest =>
    match do_mbox_send MAX_MBOX_LENGTH MAX_MESSAGE_LENGTH MessageBoxen mbox msg nbytes with
    | none => none
    | some (t, _) => send_all MAX_MBOX_LENGTH MAX_MESSAGE_LENGTH t mbox rest

/-- A table whose entry 0 is open and has both semaphores positive, with the bytes
1 to 8 in its first message cell and 9 to 16 in its second. -/
def registry_one_message : List MessageBox :=
  [{ fresh_box 4 8 8 with
      name := [65, 0, 0, 0, 0, 0, 0, 0]
      usage_count := 1
      messages := [1, 2, 3, 4, 5, 6, 7, 8, 9, 10, 11, 12, 13, 14, 15, 16] ++ List.replicate 24 0
      full_count := semaphore_init 1
      empty_count := semaphore_init 3 }]

/-! ## Facts about the loops and the machine arithmetic -/

theorem first_index_from_eq_some {p : Nat → Bool} {j : Nat} :
    ∀ (k i : Nat), i ≤ j → j < i + k → p j = true →
      (∀ m, i ≤ m → m < j → p m = false) → first_index_from p k i = some j := by
  intro k
  induction k with
  | zero => intro i h1 h2; omega
  | succ k ih =>
    intro i h1 h2 hp hmin
    unfold first_index_from
    by_cases hij : i = j
    · subst hij; simp [hp]
    · have hi : p i = false := hmin i (le_refl i) (by omega)
      simp only [hi, Bool.false_eq_true, if_false]
      exact ih (i + 1) (by omega) (by omega) hp (fun m hm1 hm2 => hmin m (by omega) hm2)

theorem first_index_from_eq_none {p : Nat → Bool} :
    ∀ (k i : Nat), (∀ m, i ≤ m → m < i + k → p m = false) → first_index_from p k i = none := by
  intro k
  induction k with
  | zero => intro i _; rfl
  | succ k ih =>
    intro i h
    unfold first_index_from
    have hi : p i = false := h i (le_refl i) (by omega)
    simp only [hi, Bool.false_eq_true, if_false]
    exact ih (i + 1) (fun m hm1 hm2 => h m (by omega) (by omega))

theorem first_index_eq_some {p : Nat → Bool} {n j : Nat} (hj : j < n) (hp : p j = true)
    (hmin : ∀ m, m < j → p m = false) : first_index n p = some j :=
  first_index_from_eq_some n 0 (Nat.zero_le j) (by omega) hp (fun m _ hm => hmin m hm)

theorem first_index_eq_none {p : Nat → Bool} {n : Nat} (h : ∀ m, m < n → p m = false) :
    first_index n p = none :=
  first_index_from_eq_none n 0 (fun m _ hm => h m (by omega))

theorem stack_new_eq (pid is_user : Int) (h0 : 0 ≤ pid) (h1 : pid ≤ 262142)
    (hu : is_user = 0 ∨ is_user = 1) :
    stack_new pid is_user =
      if 0x100000 + 0x2000 * pid + 0x1000 * is_user + 0x1000 ≤ 0x200000 then
        some (0x100000 + 0x2000 * pid + 0x1000 * is_user + 0x1000)
      else none := by
  have hw : wrap_uint32 (0x100000 + ((0x1000 * pid * 2) + (is_user * 0x1000) + 0x1000))
      = 0x100000 + 0x2000 * pid + 0x1000 * is_user + 0x1000 := by
    unfold wrap_uint32
    rcases hu with hu | hu <;> subst hu <;> omega
  simp only [stack_new, hw]

theorem search_pcb_eq_index {NUM_PCBS : Nat} {pcb : List pcb_t} {i : Nat} (hi : i < NUM_PCBS)
    (hex : (pcb.getD i default).status = status_t.EXITED)
    (hmin : ∀ j, j < i → (pcb.getD j default).status ≠ status_t.EXITED) :
    search_pcb NUM_PCBS pcb = (i : Int) := by
  unfold search_pcb
  rw [first_index_eq_some hi (by simpa using hex) (fun m hm => by simpa using hmin m hm)]

theorem search_pcb_eq_neg_one {NUM_PCBS : Nat} {pcb : List pcb_t}
    (h : ∀ i, i < NUM_PCBS → (pcb.getD i default).status ≠ status_t.EXITED) :
    search_pcb NUM_PCBS pcb = -1 := by
  unfold search_pcb
  rw [first_index_eq_none (fun m hm => by simpa using h m hm)]

theorem search_pcb_cases (NUM_PCBS : Nat) (pcb : List pcb_t) :
    (search_pcb NUM_PCBS pcb = -1 ∧
        ∀ i, i < NUM_PCBS → (pcb.getD i default).status ≠ status_t.EXITED) ∨
      ∃ i, i < NUM_PCBS ∧ search_pcb NUM_PCBS pcb = (i : Int) ∧
        (pcb.getD i default).status = status_t.EXITED ∧
        ∀ j, j < i → (pcb.getD j default).status ≠ status_t.EXITED := by
  by_cases h : ∀ i, i < NUM_PCBS → (pcb.getD i default).status ≠ status_t.EXITED
  · exact Or.inl ⟨search_pcb_eq_neg_one h, h⟩
  · right
    push_neg at h
    have hex : ∃ i, i < NUM_PCBS ∧ (pcb.getD i default).status = status_t.EXITED := h
    classical
    refine ⟨Nat.find hex, (Nat.find_spec hex).1, ?_, (Nat.find_spec hex).2, ?_⟩
    · exact search_pcb_eq_index (Nat.find_spec hex).1 (Nat.find_spec hex).2
        (fun j hj hc => Nat.find_min hex hj ⟨lt_trans hj (Nat.find_spec hex).1, hc⟩)
    · exact fun j hj hc => Nat.find_min hex hj ⟨lt_trans hj (Nat.find_spec hex).1, hc⟩

/-! ## Facts about mbox.c -/

theorem do_mbox_open_hit {MAX_MBOXEN : Nat} {t : List MessageBox} {name : List Nat} {i : Nat}
    (hi : i < MAX_MBOXEN) (hhit : same_string (t.getD i default).name name = true)
    (hmin : ∀ j, j < i → same_string (t.getD j default).name name = false) :
    do_mbox_open MAX_MBOXEN t name =
      ((i : Int), t.set i { t.getD i default with
        usage_count := wrap_int ((t.getD i default).usage_count + 1) }) := by
  unfold do_mbox_open
  rw [first_index_eq_some hi hhit hmin]

theorem do_mbox_open_alloc {MAX_MBOXEN : Nat} {t : List MessageBox} {name : List Nat} {i : Nat}
    (hno : ∀ j, j < MAX_MBOXEN → same_string (t.getD j default).name name = false)
    (hi : i < MAX_MBOXEN) (hfree : (t.getD i default).usage_count = 0)
    (hmin : ∀ j, j < i → (t.getD j default).usage_count ≠ 0) :
    do_mbox_open MAX_MBOXEN t name =
      ((i : Int), t.set i { t.getD i default with
        name := bcopy name (t.getD i default).name (strlen name)
        usage_count := 1 }) := by
  unfold do_mbox_open
  rw [first_index_eq_none hno]
  simp only
  rw [first_index_eq_some hi (by simpa using hfree) (fun m hm => by simpa using hmin m hm)]
  simp only [hfree]
  rfl

theorem do_mbox_open_full {MAX_MBOXEN : Nat} {t : List MessageBox} {name : List Nat}
    (hno : ∀ j, j < MAX_MBOXEN → same_string (t.getD j default).name name = false)
    (hbusy : ∀ j, j < MAX_MBOXEN → (t.getD j default).usage_count ≠ 0) :
    do_mbox_open MAX_MBOXEN t name = (-1, t) := by
  unfold do_mbox_open
  rw [first_index_eq_none hno]
  simp only
  rw [first_index_eq_none (fun m hm => by simpa using hbusy m hm)]

theorem c_str_take_strlen (name : List Nat) : name.take (strlen name) = c_str name := by
  unfold strlen c_str
  induction name with
  | nil => rfl
  | cons b bs ih =>
    by_cases hb : b = 0
    · simp [List.takeWhile, hb]
    · simp only [List.takeWhile, hb, ne_eq, not_false_eq_true, decide_True, List.length_cons,
        List.take_succ_cons, ih]

theorem bcopy_name_prefix (name old : List Nat) :
    (bcopy name old (strlen name)).take (strlen name) = c_str name := by
  unfold bcopy
  rw [c_str_take_strlen, List.take_append_eq_append_take]
  simp [strlen]

theorem bcopy_name_length (name old : List Nat) (h : strlen name < old.length) :
    (bcopy name old (strlen name)).length = old.length := by
  have hle : strlen name ≤ name.length := by
    have h1 : (name.take (strlen name)).length = strlen name := by
      rw [c_str_take_strlen]; rfl
    rw [List.length_take] at h1
    omega
  unfold bcopy
  rw [List.length_append, List.length_take, List.length_drop, Nat.min_eq_left hle]
  omega

theorem init_mbox_getElem? (K : Nat) :
    ∀ (n : Nat) (t : List MessageBox) (j : Nat),
      (init_mbox n K t)[j]? =
        if j < n then
          t[j]?.map (fun mb => { mb with
            usage_count := 0
            start := 0
            end_ := 0
            full_count := semaphore_init 0
            empty_count := semaphore_init K
            lock := lock_init })
        else t[j]? := by
  intro n
  induction n with
  | zero => intro t j; simp [init_mbox]
  | succ n ih =>
    intro t j
    have ih' := ih t
    unfold init_mbox at ih' ⊢
    rw [List.range_succ, List.foldl_append]
    simp only [List.foldl_cons, List.foldl_nil, init_mbox_entry, List.getElem?_set,
      List.getD_eq_getElem?_getD]
    by_cases hjn : n = j
    · subst hjn
      simp only [if_true, ih', lt_irrefl, if_false, Nat.lt_succ_self]
      cases h : t[n]? with
      | none =>
        have : ¬ n < (List.foldl (init_mbox_entry K) t (List.range n)).length := by
          intro hlt
          have := List.getElem?_eq_getElem hlt
          rw [ih', if_neg (lt_irrefl n), h] at this
          exact absurd this (by simp)
        simp [this]
      | some mb =>
        have : n < (List.foldl (init_mbox_entry K) t (List.range n)).length := by
          by_contra hlt
          have := List.getElem?_eq_none (Nat.le_of_not_lt hlt)
          rw [ih', if_neg (lt_irrefl n), h] at this
          exact absurd this (by simp)
        simp [this]
    · simp only [hjn, if_false, ih']
      by_cases hlt : j < n
      · simp [hlt, Nat.lt_succ_of_lt hlt]
      · have : ¬ j < n + 1 := by omega
        simp [hlt, this]

theorem init_mbox_static (N K M L : Nat) :
    init_mbox N K (MessageBoxen_static N K M L) = List.replicate N (fresh_box K M L) := by
  apply List.ext_getElem?
  intro j
  rw [init_mbox_getElem?]
  simp only [MessageBoxen_static, List.getElem?_replicate, fresh_box]
  by_cases hj : j < N
  · simp [hj]
  · simp [hj]

theorem getD_cons_cons_replicate {P : MessageBox → Prop} (a b e : MessageBox) (n j : Nat)
    (hj : j < n + 2) (ha : P a) (hb : P b) (he : P e) :
    P ((a :: b :: List.replicate n e).getD j default) := by
  match j, hj with
  | 0, _ => exact ha
  | 1, _ => exact hb
  | j + 2, hj =>
    have hjn : j < n := by omega
    simpa [List.getD_eq_getElem?_getD, List.getElem?_replicate, hjn] using he

theorem do_mbox_open_alloc_zero (a b e : MessageBox) (n : Nat) (name : List Nat)
    (ha : same_string a.name name = false) (hb : same_string b.name name = false)
    (he : same_string e.name name = false) (hfree : a.usage_count = 0) :
    do_mbox_open (n + 2) (a :: b :: List.replicate n e) name =
      (0, { a with name := bcopy name a.name (strlen name), usage_count := 1 } ::
        b :: List.replicate n e) := by
  rw [do_mbox_open_alloc (i := 0)
    (fun j hj => getD_cons_cons_replicate
      (P := fun mb => same_string mb.name name = false) a b e n j hj ha hb he)
    (by omega) (by simpa using hfree) (by intro j hj; omega)]
  simp

theorem do_mbox_open_alloc_one (a b e : MessageBox) (n : Nat) (name : List Nat)
    (ha : same_string a.name name = false) (hb : same_string b.name name = false)
    (he : same_string e.name name = false) (hbusy : a.usage_count ≠ 0)
    (hfree : b.usage_count = 0) :
    do_mbox_open (n + 2) (a :: b :: List.replicate n e) name =
      (1, a :: { b with name := bcopy name b.name (strlen name), usage_count := 1 } ::
        List.replicate n e) := by
  rw [do_mbox_open_alloc (i := 1)
    (fun j hj => getD_cons_cons_replicate
      (P := fun mb => same_string mb.name name = false) a b e n j hj ha hb he)
    (by omega) (by simpa using hfree)
    (by intro j hj; obtain rfl : j = 0 := by omega
        simpa using hbusy)]
  simp

theorem do_mbox_close_zero (K : Nat) (a : MessageBox) (rest : List MessageBox)
    (h : a.usage_count = 1) :
    do_mbox_close K (a :: rest) 0 =
      { a with usage_count := 0, full_count := semaphore_init 0,
               empty_count := semaphore_init K } :: rest := by
  simp [do_mbox_close, h, wrap_int]

theorem same_string_fresh_box (K M l : Nat) (name : List Nat) (hname : c_str name ≠ []) :
    same_string (fresh_box K M (l + 3)).name name = false := by
  have hz : c_str (fresh_box K M (l + 3)).name = [] := by
    simp [c_str, fresh_box, List.replicate_succ]
  simp only [same_string, hz]
  exact decide_eq_false (fun h => hname h.symm)

theorem do_mbox_send_returns (K M : Nat) (t : List MessageBox) (mbox : Nat) (msg : List Nat)
    (nbytes : Nat) (hempty : 0 < (t.getD mbox default).empty_count.value)
    (hlock : (t.getD mbox default).lock.held = false) :
    ∃ mb, do_mbox_send K M t mbox msg nbytes = some (t, mb) ∧
      mb.messages = (t.getD mbox default).messages.take ((t.getD mbox default).end_.toNat * M) ++
        bcopy msg ((t.getD mbox default).messages.drop ((t.getD mbox default).end_.toNat * M))
          nbytes := by
  simp only [List.getD_eq_getElem?_getD] at *
  simp [do_mbox_send, semaphore_down, lock_acquire, hempty, hlock]

theorem send_all_unchanged (K M : Nat) (t : List MessageBox) (mbox : Nat)
    (hempty : 0 < (t.getD mbox default).empty_count.value)
    (hlock : (t.getD mbox default).lock.held = false) :
    ∀ msgs : List (List Nat × Nat), send_all K M t mbox msgs = some t := by
  intro msgs
  induction msgs with
  | nil => rfl
  | cons m rest ih =>
    obtain ⟨msg, nbytes⟩ := m
    obtain ⟨mb, hmb, _⟩ := do_mbox_send_returns K M t mbox msg nbytes hempty hlock
    simp only [send_all, hmb]
    exact ih

theorem do_mbox_recv_blocks (K M : Nat) (t : List MessageBox) (mbox : Nat) (buf : List Nat)
    (nbytes : Nat) (hfull : (t.getD mbox default).full_count.value = 0) :
    do_mbox_recv K M t mbox buf nbytes = none := by
  simp only [List.getD_eq_getElem?_getD] at *
  simp [do_mbox_recv, semaphore_down, hfull]

theorem do_mbox_recv_returns (K M : Nat) (t : List MessageBox) (mbox : Nat) (buf : List Nat)
    (nbytes : Nat) (hfull : 0 < (t.getD mbox default).full_count.value)
    (hlock : (t.getD mbox default).lock.held = false) :
    ∃ mb, do_mbox_recv K M t mbox buf nbytes = some (t, mb,
      bcopy ((t.getD mbox default).messages.drop ((t.getD mbox default).start.toNat * M))
        buf nbytes) := by
  simp only [List.getD_eq_getElem?_getD] at *
  simp [do_mbox_recv, semaphore_down, lock_acquire, hfull, hlock]

theorem bcopy_getElem? (source destin : List Nat) (size j : Nat) (hj : j < size)
    (hs : j < source.length) : (bcopy source destin size)[j]? = source[j]? := by
  unfold bcopy
  rw [List.getElem?_append_left (by simp; omega), List.getElem?_take]
  simp [hj]

/-! ## The claims -/

/-- C1: a failed `do_spawn` is atomic.  If no slot of the table is `EXITED` it
returns `-2`; if some slot is `EXITED` but the loader answers `0` it returns `-1`;
in both cases the kernel state (every PCB, `total_ready_priority`, the ready queue,
the stack memory) is the one before the call. -/
theorem do_spawn_failure_atomic (NUM_PCBS : Nat) (first_entry : Int)
    (ramdisk_find : List Nat → Process) (s : KState) (filename : List Nat) :
    ((∀ i, i < NUM_PCBS → (s.pcb.getD i default).status ≠ status_t.EXITED) →
        do_spawn NUM_PCBS first_entry ramdisk_find s filename = some (-2, s)) ∧
      ((∃ i, i < NUM_PCBS ∧ (s.pcb.getD i default).status = status_t.EXITED) →
        ramdisk_find filename = 0 →
        do_spawn NUM_PCBS first_entry ramdisk_find s filename = some (-1, s)) := by
  constructor
  · intro h
    simp [do_spawn, search_pcb_eq_neg_one h]
  · rintro ⟨i, hi, hex⟩ hfind
    rcases search_pcb_cases NUM_PCBS s.pcb with ⟨_, hnone⟩ | ⟨j, _, hj, _, _⟩
    · exact absurd hex (hnone i hi)
    · have hne : ((j : Int) = -1) = False := by
        simp only [eq_iff_iff, iff_false]; omega
      simp [do_spawn, hj, hne, hfind]

theorem do_spawn_failure_atomic_witness :
    do_spawn 2 0x8000 (fun _ => 0) kstate_full [105] = some (-2, kstate_full) ∧
      do_spawn 2 0x8000 (fun _ => 0) kstate_free [105] = some (-1, kstate_free) :=
  ⟨(do_spawn_failure_atomic 2 0x8000 (fun _ => 0) kstate_full [105]).1 (by decide),
    (do_spawn_failure_atomic 2 0x8000 (fun _ => 0) kstate_free [105]).2
      ⟨1, by decide, by decide⟩ rfl⟩

/-- C2 as stated fails: on a table of 129 slots whose first `EXITED` slot is slot
128, with a name the loader resolves, `do_spawn` does not return 128: the
assertion of `stack_new` fails for the user stack of that slot and the kernel
halts.  And on a state whose `total_ready_priority` is the largest `int`, the
spawn leaves the counter at `-2147483648`, not one higher than it was. -/
theorem do_spawn_halts_counterexample :
    (search_pcb 129 kstate_slot_128.pcb = 128 ∧
        (kstate_slot_128.pcb.getD 128 default).status = status_t.EXITED ∧
        stack_new 128 1 = none ∧
        do_spawn 129 0x8000 (fun _ => 0x20000) kstate_slot_128 [105] = none) ∧
      (do_spawn 2 0x8000 (fun _ => 0x20000) kstate_counter_max [105]).map
          (fun r => (r.1, r.2.total_ready_priority)) = some (1, -2147483648) := by
  decide

/-- C2, amended: a successful `do_spawn` allocates first-fit.  On a table of
`NUM_PCBS` slots whose first `EXITED` slot is `i` with `i ≤ 127` (the slots whose two
stacks fit the window `stack_new` asserts), with `total_ready_priority` an `int`
below the largest one, and a name the loader resolves to a non-zero entry point,
`do_spawn` returns `i`; afterwards slot `i` has `pid = i`, status `FIRST_TIME`,
priority 1, the resolved entry point and task type `PROCESS`;
`total_ready_priority` has grown by the priority of slot `i`; `i` has been appended
to the ready queue; every other slot is unchanged. -/
theorem do_spawn_success_first_fit (NUM_PCBS : Nat) (first_entry : Int)
    (ramdisk_find : List Nat → Process) (s : KState) (filename : List Nat) (i : Nat)
    (hlen : s.pcb.length = NUM_PCBS) (hi : i < NUM_PCBS) (hcap : i ≤ 127)
    (hlow : -2147483648 ≤ s.total_ready_priority)
    (hhigh : s.total_ready_priority < 2147483647)
    (hex : (s.pcb.getD i default).status = status_t.EXITED)
    (hmin : ∀ j, j < i → (s.pcb.getD j default).status ≠ status_t.EXITED)
    (hfind : ramdisk_find filename ≠ 0) :
    ∃ s', do_spawn NUM_PCBS first_entry ramdisk_find s filename = some ((i : Int), s') ∧
      (s'.pcb.getD i default).pid = (i : Int) ∧
      (s'.pcb.getD i default).status = status_t.FIRST_TIME ∧
      (s'.pcb.getD i default).priority = 1 ∧
      (s'.pcb.getD i default).entry_point = ((ramdisk_find filename).val : Int) ∧
      (s'.pcb.getD i default).task_type = task_type_t.PROCESS ∧
      s'.total_ready_priority = s.total_ready_priority + (s'.pcb.getD i default).priority ∧
      s'.ready_queue = s.ready_queue ++ [i] ∧
      s'.pcb.length = s.pcb.length ∧
      ∀ j, j ≠ i → s'.pcb.getD j default = s.pcb.getD j default := by
  have hidx := search_pcb_eq_index hi hex hmin
  have hne : ((i : Int) = -1) = False := by
    simp only [eq_iff_iff, iff_false]; omega
  have hk : stack_new (i : Int) 0 = some (0x100000 + 0x2000 * (i : Int) + 0x1000 * 0 + 0x1000) := by
    rw [stack_new_eq (i : Int) 0 (by omega) (by omega) (Or.inl rfl), if_pos (by omega)]
  have hu : stack_new (i : Int) 1 = some (0x100000 + 0x2000 * (i : Int) + 0x1000 * 1 + 0x1000) := by
    rw [stack_new_eq (i : Int) 1 (by omega) (by omega) (Or.inr rfl), if_pos (by omega)]
  have hil : i < s.pcb.length := by omega
  have hwrap : wrap_int (s.total_ready_priority + 1) = s.total_ready_priority + 1 := by
    unfold wrap_int
    omega
  have hrun : do_spawn NUM_PCBS first_entry ramdisk_find s filename = some ((i : Int),
      { pcb := s.pcb.set i
          { s.pcb.getD i default with
            entry_point := ((ramdisk_find filename).val : Int)
            pid := (i : Int)
            task_type := task_type_t.PROCESS
            priority := 1
            status := status_t.FIRST_TIME
            sleep_until := 0
            total_process_time := 0
            waiting_for_lock := none
            condition := condition_init
            ksp := 0x100000 + 0x2000 * (i : Int) + 0x1000 * 0 + 0x1000 - 4
            usp := 0x100000 + 0x2000 * (i : Int) + 0x1000 * 1 + 0x1000
            nested_count := 0 }
        total_ready_priority := s.total_ready_priority + 1
        ready_queue := s.ready_queue ++ [i]
        memory := (0x100000 + 0x2000 * (i : Int) + 0x1000 * 0 + 0x1000 - 4, first_entry) :: s.memory }) := by
    simp only [do_spawn, hidx, hne, if_false, hfind, initialize_pcb, hk, hu, Int.toNat_ofNat,
      queue_put]
    simp [List.getD_eq_getElem?_getD, List.getElem?_set, hil, hwrap]
  refine ⟨_, hrun, ?_⟩
  simp [List.getD_eq_getElem?_getD, List.getElem?_set, hil]
  intro j hj
  simp [List.getElem?_set, Ne.symm hj]

theorem do_spawn_success_first_fit_witness :
    ∃ s', do_spawn 2 0x8000 (fun _ => 0x20000) kstate_free [105] = some (((1 : Nat) : Int), s') ∧
      (s'.pcb.getD 1 default).pid = ((1 : Nat) : Int) ∧
      (s'.pcb.getD 1 default).status = status_t.FIRST_TIME ∧
      (s'.pcb.getD 1 default).priority = 1 ∧
      (s'.pcb.getD 1 default).entry_point = (((0x20000 : Process)).val : Int) ∧
      (s'.pcb.getD 1 default).task_type = task_type_t.PROCESS ∧
      s'.total_ready_priority =
        kstate_free.total_ready_priority + (s'.pcb.getD 1 default).priority ∧
      s'.ready_queue = kstate_free.ready_queue ++ [1] ∧
      s'.pcb.length = kstate_free.pcb.length ∧
      ∀ j, j ≠ 1 → s'.pcb.getD j default = kstate_free.pcb.getD j default :=
  do_spawn_success_first_fit 2 0x8000 (fun _ => 0x20000) kstate_free [105] 1
    rfl (by decide) (by decide) (by decide) (by decide) (by decide) (by decide) (by decide)

/-- C3 on the code, for every configuration with at least two mailboxes and names
of at least three bytes: from the freshly initialised table, open "AB" and close
it (entry 0).  Now no entry is open, so "C" is not open and entry 0 is free; yet
two consecutive `do_mbox_open("C")` return 0 and then 1, and the usage count of
mailbox 0 is 1 afterwards, not 2.  (The bytes 65, 66, 67 are the letters A, B, C.) -/
theorem open_twice_returns_two_ids (N K M L : Nat) (hN : 2 ≤ N) (hL : 3 ≤ L) :
    ∃ t, run_calls N K (init_mbox N K (MessageBoxen_static N K M L))
          [mbox_call.open_ [65, 66], mbox_call.close 0] = some t ∧
      (∀ i, i < N → (t.getD i default).usage_count = 0) ∧
      (do_mbox_open N t [67]).1 = 0 ∧
      (do_mbox_open N (do_mbox_open N t [67]).2 [67]).1 = 1 ∧
      do_mbox_usage_count (do_mbox_open N (do_mbox_open N t [67]).2 [67]).2 0 = 1 := by
  obtain ⟨n, rfl⟩ : ∃ n, N = n + 2 := ⟨N - 2, by omega⟩
  obtain ⟨l, rfl⟩ : ∃ l, L = l + 3 := ⟨L - 3, by omega⟩
  rw [init_mbox_static]
  simp only [List.replicate_succ (n := n + 1), List.replicate_succ (n := n)]
  have he := same_string_fresh_box K M l
  have hopen1 := do_mbox_open_alloc_zero
    { fresh_box K M (l + 3) with name := 65 :: 66 :: 0 :: List.replicate l 0 }
    (fresh_box K M (l + 3)) (fresh_box K M (l + 3)) n [67]
    (by simp [same_string, c_str]) (he _ (by decide)) (he _ (by decide)) rfl
  refine ⟨{ fresh_box K M (l + 3) with name := 65 :: 66 :: 0 :: List.replicate l 0 } ::
    fresh_box K M (l + 3) :: List.replicate n (fresh_box K M (l + 3)), ?_, ?_, ?_, ?_⟩
  · simp only [run_calls]
    rw [do_mbox_open_alloc_zero _ _ _ n [65, 66] (he _ (by decide)) (he _ (by decide))
      (he _ (by decide)) rfl]
    simp only [Nat.zero_lt_succ, true_and, List.getD_cons_zero, zero_lt_one, if_true]
    rw [do_mbox_close_zero K _ _ rfl]
    simp [bcopy, strlen, c_str, fresh_box, List.replicate_succ]
  · intro i hi
    exact getD_cons_cons_replicate (P := fun mb => mb.usage_count = 0) _ _ _ n i hi rfl rfl rfl
  · rw [hopen1]
  · rw [hopen1]
    simp only
    rw [do_mbox_open_alloc_one _ _ _ n [67]
      (by simp [same_string, c_str, bcopy, strlen])
      (he _ (by decide)) (he _ (by decide)) (by simp) rfl]
    simp [do_mbox_usage_count, wrap_uint32]

theorem open_twice_returns_two_ids_witness :
    ∃ t, run_calls 4 4 (init_mbox 4 4 (MessageBoxen_static 4 4 8 8))
          [mbox_call.open_ [65, 66], mbox_call.close 0] = some t ∧
      (∀ i, i < 4 → (t.getD i default).usage_count = 0) ∧
      (do_mbox_open 4 t [67]).1 = 0 ∧
      (do_mbox_open 4 (do_mbox_open 4 t [67]).2 [67]).1 = 1 ∧
      do_mbox_usage_count (do_mbox_open 4 (do_mbox_open 4 t [67]).2 [67]).2 0 = 1 :=
  open_twice_returns_two_ids 4 4 8 8 (by decide) (by decide)

/-- C4 as stated fails: after "A" and "B" were opened (entries 0 and 1) and both
closed, every `usage_count` is 0, so no open entry is named "B" and the first free
entry is entry 0; `do_mbox_open("B")` nevertheless returns 1, the entry that still
holds the name "B".  (The bytes 65 and 66 are the letters A and B.) -/
theorem do_mbox_open_stale_name_counterexample :
    (run_calls 4 4 registry_fresh
        [mbox_call.open_ [65], mbox_call.open_ [66], mbox_call.close 0, mbox_call.close 1]).map
      (fun t => (t.map (fun mb => mb.usage_count), (do_mbox_open 4 t [66]).1))
      = some ([0, 0, 0, 0], 1) := by
  decide

/-- C4, amended: `do_mbox_open` is lookup-or-allocate on the stored names.  On a
table of `MAX_MBOXEN` entries with name buffers of `MBOX_NAME_LENGTH` bytes, for a
requested name shorter than `MBOX_NAME_LENGTH`: if the stored name of some entry
equals the requested name as a C string, whatever its `usage_count`, open
increments (as an `int`) the `usage_count` of the first such entry and returns its
index; otherwise, if some entry has `usage_count == 0`, open returns the index of
the first such entry, the first `strlen(name)` bytes of its name buffer become the
requested name and its `usage_count` becomes 1; otherwise open returns `-1` and the
table is unchanged.  No other entry changes. -/
theorem do_mbox_open_lookup_or_allocate (MAX_MBOXEN MBOX_NAME_LENGTH : Nat)
    (t : List MessageBox) (name : List Nat)
    (hlen : t.length = MAX_MBOXEN)
    (hbuf : ∀ i, i < MAX_MBOXEN → (t.getD i default).name.length = MBOX_NAME_LENGTH)
    (hname : strlen name < MBOX_NAME_LENGTH) :
    (∀ i, i < MAX_MBOXEN → same_string (t.getD i default).name name = true →
        (∀ j, j < i → same_string (t.getD j default).name name = false) →
        do_mbox_open MAX_MBOXEN t name =
          ((i : Int), t.set i { t.getD i default with
            usage_count := wrap_int ((t.getD i default).usage_count + 1) })) ∧
      ((∀ j, j < MAX_MBOXEN → same_string (t.getD j default).name name = false) →
        ∀ i, i < MAX_MBOXEN → (t.getD i default).usage_count = 0 →
        (∀ j, j < i → (t.getD j default).usage_count ≠ 0) →
        ∃ stored, stored.length = MBOX_NAME_LENGTH ∧
          stored.take (strlen name) = c_str name ∧
          do_mbox_open MAX_MBOXEN t name =
            ((i : Int), t.set i { t.getD i default with name := stored, usage_count := 1 })) ∧
      ((∀ j, j < MAX_MBOXEN → same_string (t.getD j default).name name = false) →
        (∀ j, j < MAX_MBOXEN → (t.getD j default).usage_count ≠ 0) →
        do_mbox_open MAX_MBOXEN t name = (-1, t)) := by
  refine ⟨?_, ?_, ?_⟩
  · intro i hi hhit hmin
    exact do_mbox_open_hit hi hhit hmin
  · intro hno i hi hfree hmin
    refine ⟨_, ?_, bcopy_name_prefix name _, do_mbox_open_alloc hno hi hfree hmin⟩
    rw [bcopy_name_length name _ (by rw [hbuf i hi]; exact hname)]
    exact hbuf i hi
  · intro hno hbusy
    exact do_mbox_open_full hno hbusy

theorem do_mbox_open_lookup_or_allocate_witness :
    do_mbox_open 4 registry_A [65] =
        (((0 : Nat) : Int), registry_A.set 0 { registry_A.getD 0 default with
          usage_count := wrap_int ((registry_A.getD 0 default).usage_count + 1) }) ∧
      (∃ stored, stored.length = 8 ∧ stored.take (strlen [66]) = c_str [66] ∧
        do_mbox_open 4 registry_A [66] =
          (((1 : Nat) : Int),
            registry_A.set 1 { registry_A.getD 1 default with name := stored, usage_count := 1 })) ∧
      do_mbox_open 4 registry_ABCD [69] = (-1, registry_ABCD) :=
  ⟨(do_mbox_open_lookup_or_allocate 4 8 registry_A [65] (by decide) (by decide) (by decide)).1
      0 (by decide) (by decide) (by decide),
    (do_mbox_open_lookup_or_allocate 4 8 registry_A [66] (by decide) (by decide)
      (by decide)).2.1 (by decide) 1 (by decide) (by decide) (by decide),
    (do_mbox_open_lookup_or_allocate 4 8 registry_ABCD [69] (by decide) (by decide)
      (by decide)).2.2 (by decide) (by decide)⟩

/-- C5 on the code, for every configuration with at least two mailboxes and names
of at least three bytes: from the freshly initialised table, open "ZB" (entry 0),
open "AB" (entry 1), close entry 0, open "A".  The last open returns 0, and in the
table it leaves entries 0 and 1 are both open and both hold the stored name "AB":
the names of open entries are not unique, and entry 0 does not hold the name "A" it
was opened with.  (The bytes 65, 66, 90 are the letters A, B, Z.) -/
theorem open_entries_share_a_name (N K M L : Nat) (hN : 2 ≤ N) (hL : 3 ≤ L) :
    ∃ t3 t, run_calls N K (init_mbox N K (MessageBoxen_static N K M L))
          [mbox_call.open_ [90, 66], mbox_call.open_ [65, 66], mbox_call.close 0] = some t3 ∧
      do_mbox_open N t3 [65] = (0, t) ∧
      0 < (t.getD 0 default).usage_count ∧ 0 < (t.getD 1 default).usage_count ∧
      c_str (t.getD 0 default).name = [65, 66] ∧ c_str (t.getD 1 default).name = [65, 66] := by
  obtain ⟨n, rfl⟩ : ∃ n, N = n + 2 := ⟨N - 2, by omega⟩
  obtain ⟨l, rfl⟩ : ∃ l, L = l + 3 := ⟨L - 3, by omega⟩
  rw [init_mbox_static]
  simp only [List.replicate_succ (n := n + 1), List.replicate_succ (n := n)]
  have he := same_string_fresh_box K M l
  refine ⟨{ fresh_box K M (l + 3) with name := 90 :: 66 :: 0 :: List.replicate l 0 } ::
      { fresh_box K M (l + 3) with
        name := 65 :: 66 :: 0 :: List.replicate l 0, usage_count := 1 } ::
      List.replicate n (fresh_box K M (l + 3)),
    { fresh_box K M (l + 3) with
        name := 65 :: 66 :: 0 :: List.replicate l 0, usage_count := 1 } ::
      { fresh_box K M (l + 3) with
        name := 65 :: 66 :: 0 :: List.replicate l 0, usage_count := 1 } ::
      List.replicate n (fresh_box K M (l + 3)), ?_, ?_, ?_⟩
  · simp only [run_calls]
    rw [do_mbox_open_alloc_zero _ _ _ n [90, 66] (he _ (by decide)) (he _ (by decide))
      (he _ (by decide)) rfl]
    simp only
    rw [do_mbox_open_alloc_one _ _ _ n [65, 66]
      (by simp [same_string, c_str, bcopy, strlen, fresh_box, List.replicate_succ])
      (he _ (by decide)) (he _ (by decide)) (by simp) rfl]
    simp only [Nat.zero_lt_succ, true_and, List.getD_cons_zero, zero_lt_one, if_true]
    rw [do_mbox_close_zero K _ _ rfl]
    simp [bcopy, strlen, c_str, fresh_box, List.replicate_succ]
  · rw [do_mbox_open_alloc_zero _ _ _ n [65]
      (by simp [same_string, c_str]) (by simp [same_string, c_str]) (he _ (by decide)) rfl]
    simp [bcopy, strlen, c_str, fresh_box, List.replicate_succ]
  · simp [c_str]

theorem open_entries_share_a_name_witness :
    ∃ t3 t, run_calls 4 4 (init_mbox 4 4 (MessageBoxen_static 4 4 8 8))
          [mbox_call.open_ [90, 66], mbox_call.open_ [65, 66], mbox_call.close 0] = some t3 ∧
      do_mbox_open 4 t3 [65] = (0, t) ∧
      0 < (t.getD 0 default).usage_count ∧ 0 < (t.getD 1 default).usage_count ∧
      c_str (t.getD 0 default).name = [65, 66] ∧ c_str (t.getD 1 default).name = [65, 66] :=
  open_entries_share_a_name 4 4 8 8 (by decide) (by decide)

/-- C6 on the code: on a mailbox whose shared entry has a free lock, a positive
`empty_count` and `full_count` 0 (as after it was opened), every sequence of
`do_mbox_send` calls returns with the table exactly as it was, and a following
`do_mbox_recv` blocks: no message that was sent is ever received. -/
theorem sent_messages_are_never_received (K M : Nat) (t : List MessageBox) (mbox : Nat)
    (msgs : List (List Nat × Nat)) (buf : List Nat) (nbytes : Nat)
    (hempty : 0 < (t.getD mbox default).empty_count.value)
    (hlock : (t.getD mbox default).lock.held = false)
    (hfull : (t.getD mbox default).full_count.value = 0) :
    send_all K M t mbox msgs = some t ∧ do_mbox_recv K M t mbox buf nbytes = none :=
  ⟨send_all_unchanged K M t mbox hempty hlock msgs, do_mbox_recv_blocks K M t mbox buf nbytes hfull⟩

theorem sent_messages_are_never_received_witness :
    send_all 4 8 registry_A 0 [([97], 1), ([98], 1)] = some registry_A ∧
      do_mbox_recv 4 8 registry_A 0 [0] 1 = none :=
  sent_messages_are_never_received 4 8 registry_A 0 [([97], 1), ([98], 1)] [0] 1
    (by decide) (by decide) (by decide)

/-- C7 on the code: on an empty open mailbox of capacity `K` (shared entry with
`empty_count` `K`, `full_count` 0, `start = end = 0`, lock free), `K` calls of
`do_mbox_send` return and leave the shared entry with `empty_count` still `K` and
`full_count` still 0; one more `do_mbox_send` returns as well instead of blocking,
and `do_mbox_is_full` answers false. -/
theorem sends_never_fill_the_mailbox (K M : Nat) (t : List MessageBox) (mbox : Nat)
    (msgs : List (List Nat × Nat)) (msg : List Nat) (nbytes : Nat)
    (hK : 1 ≤ K) (hlen : msgs.length = K)
    (hempty : (t.getD mbox default).empty_count.value = (K : Int))
    (hfull : (t.getD mbox default).full_count.value = 0)
    (hlock : (t.getD mbox default).lock.held = false)
    (hstart : (t.getD mbox default).start = 0) (hend : (t.getD mbox default).end_ = 0) :
    ∃ t', send_all K M t mbox msgs = some t' ∧
      (t'.getD mbox default).empty_count.value = (K : Int) ∧
      (t'.getD mbox default).full_count.value = 0 ∧
      (do_mbox_send K M t' mbox msg nbytes).isSome = true ∧
      do_mbox_is_full K t' mbox = false := by
  have hpos : 0 < (t.getD mbox default).empty_count.value := by omega
  refine ⟨t, send_all_unchanged K M t mbox hpos hlock msgs, hempty, hfull, ?_, ?_⟩
  · obtain ⟨mb, hmb, _⟩ := do_mbox_send_returns K M t mbox msg nbytes hpos hlock
    simp [hmb]
  · have h1 : Int.tmod 1 ((K : Int) + 1) = 1 := Int.tmod_eq_of_lt (by decide) (by omega)
    simp only [List.getD_eq_getElem?_getD] at *
    simp [do_mbox_is_full, hend, hstart, wrap_int, BUFFER_LENGTH, h1]

theorem sends_never_fill_the_mailbox_witness :
    ∃ t', send_all 4 8 registry_A 0 [([97], 1), ([98], 1), ([99], 1), ([100], 1)] = some t' ∧
      (t'.getD 0 default).empty_count.value = ((4 : Nat) : Int) ∧
      (t'.getD 0 default).full_count.value = 0 ∧
      (do_mbox_send 4 8 t' 0 [101] 1).isSome = true ∧
      do_mbox_is_full 4 t' 0 = false :=
  sends_never_fill_the_mailbox 4 8 registry_A 0 [([97], 1), ([98], 1), ([99], 1), ([100], 1)]
    [101] 1 (by decide) (by decide) (by decide) (by decide) (by decide) (by decide) (by decide)

/-- C8 on the code: `do_mbox_send` and `do_mbox_recv` copy `nbytes` bytes whatever
`MAX_MESSAGE_LENGTH` is.  With `nbytes = MAX_MESSAGE_LENGTH + 1`, on an entry with a
positive `empty_count` and a free lock whose cell at `end` is not the last of the
buffer, the send stores byte `MAX_MESSAGE_LENGTH` of the message one position past
the last byte of that cell (the first byte of the next cell); and when `full_count`
is positive and the cell at `start` is not the last one, the receive copies into
the buffer of the caller the byte that follows the cell at `start`. -/
theorem copies_run_past_the_message_cell (K M : Nat) (t : List MessageBox) (mbox : Nat)
    (msg buf : List Nat)
    (hempty : 0 < (t.getD mbox default).empty_count.value)
    (hlock : (t.getD mbox default).lock.held = false)
    (hmsg : M < msg.length)
    (hend : (t.getD mbox default).end_.toNat * M + M <
      (t.getD mbox default).messages.length) :
    (∃ mb, do_mbox_send K M t mbox msg (M + 1) = some (t, mb) ∧
        mb.messages[(t.getD mbox default).end_.toNat * M + M]? = msg[M]?) ∧
      (0 < (t.getD mbox default).full_count.value →
        (t.getD mbox default).start.toNat * M + M < (t.getD mbox default).messages.length →
        ∃ mb out, do_mbox_recv K M t mbox buf (M + 1) = some (t, mb, out) ∧
          out[M]? =
            (t.getD mbox default).messages[(t.getD mbox default).start.toNat * M + M]?) := by
  constructor
  · obtain ⟨mb, hmb, hmsgs⟩ := do_mbox_send_returns K M t mbox msg (M + 1) hempty hlock
    refine ⟨mb, hmb, ?_⟩
    have hend' : (t.getD mbox default).end_.toNat * M ≤
        (t.getD mbox default).messages.length := by omega
    rw [hmsgs, List.getElem?_append_right (by simp),
      List.length_take, Nat.min_eq_left hend', Nat.add_sub_cancel_left]
    exact bcopy_getElem? msg _ (M + 1) M (Nat.lt_succ_self M) hmsg
  · intro hfull hstart
    obtain ⟨mb, hmb⟩ := do_mbox_recv_returns K M t mbox buf (M + 1) hfull hlock
    refine ⟨mb, _, hmb, ?_⟩
    rw [bcopy_getElem? _ buf (M + 1) M (Nat.lt_succ_self M)
      (by rw [List.length_drop]; omega), List.getElem?_drop]

theorem copies_run_past_the_message_cell_witness :
    (∃ mb, do_mbox_send 4 8 registry_one_message 0 [21, 22, 23, 24, 25, 26, 27, 28, 29] (8 + 1)
          = some (registry_one_message, mb) ∧
        mb.messages[(registry_one_message.getD 0 default).end_.toNat * 8 + 8]?
          = [21, 22, 23, 24, 25, 26, 27, 28, 29][8]?) ∧
      (∃ mb out, do_mbox_recv 4 8 registry_one_message 0 [0, 0, 0, 0, 0, 0, 0, 0, 0] (8 + 1)
          = some (registry_one_message, mb, out) ∧
        out[8]? = (registry_one_message.getD 0 default).messages[
          (registry_one_message.getD 0 default).start.toNat * 8 + 8]?) :=
  have h := copies_run_past_the_message_cell 4 8 registry_one_message 0
    [21, 22, 23, 24, 25, 26, 27, 28, 29] [0, 0, 0, 0, 0, 0, 0, 0, 0]
    (by decide) (by decide) (by decide) (by decide)
  ⟨h.1, h.2 (by decide) (by decide)⟩

/-- C9 as stated fails: `stack_new` passes its assertion at pid `524288` although
`0x100000 + 0x2000 * pid + 0x1000` exceeds `0x200000`, and the address it returns
is the one it returns for pid `0`, so the two regions coincide. -/
theorem stack_new_wraps_counterexample :
    (0 : Int) ≤ 524288 ∧ (524288 : Int) ≠ 0 ∧
      stack_new 524288 0 = some 0x101000 ∧ stack_new 0 0 = some 0x101000 ∧
      (0x200000 : Int) < 0x100000 + 0x2000 * 524288 + 0x1000 * 0 + 0x1000 := by
  decide

/-- C9, amended: for pids from `0` to `262142` (where the `int` expression of
`stack_new` does not overflow) and `is_user` in `{0, 1}`, the assertion of
`stack_new` fails exactly when `0x100000 + 0x2000 * pid + 0x1000 * is_user + 0x1000`
exceeds `0x200000`; and for two distinct such pairs on which it passes, the two
`0x1000`-byte regions ending at the returned addresses are disjoint and each lies
inside `[0x100000, 0x200000]`. -/
theorem stack_new_regions_disjoint (pid1 u1 pid2 u2 : Int)
    (hp1 : 0 ≤ pid1) (hb1 : pid1 ≤ 262142) (hu1 : u1 = 0 ∨ u1 = 1)
    (hp2 : 0 ≤ pid2) (hb2 : pid2 ≤ 262142) (hu2 : u2 = 0 ∨ u2 = 1)
    (hne : pid1 ≠ pid2 ∨ u1 ≠ u2) :
    (stack_new pid1 u1 = none ↔
        0x200000 < 0x100000 + 0x2000 * pid1 + 0x1000 * u1 + 0x1000) ∧
      (stack_new pid2 u2 = none ↔
        0x200000 < 0x100000 + 0x2000 * pid2 + 0x1000 * u2 + 0x1000) ∧
      ∀ t1 t2, stack_new pid1 u1 = some t1 → stack_new pid2 u2 = some t2 →
        (t1 ≤ t2 - 0x1000 ∨ t2 ≤ t1 - 0x1000) ∧
          (0x100000 ≤ t1 - 0x1000 ∧ t1 ≤ 0x200000) ∧
          (0x100000 ≤ t2 - 0x1000 ∧ t2 ≤ 0x200000) := by
  rw [stack_new_eq pid1 u1 hp1 hb1 hu1, stack_new_eq pid2 u2 hp2 hb2 hu2]
  refine ⟨?_, ?_, ?_⟩
  · split_ifs with h <;> simp <;> omega
  · split_ifs with h <;> simp <;> omega
  · intro t1 t2 h1 h2
    split_ifs at h1 h2 with ha hb
    simp only [Option.some.injEq] at h1 h2
    subst h1 h2
    rcases hu1 with hu1 | hu1 <;> rcases hu2 with hu2 | hu2 <;> subst hu1 hu2 <;> omega

theorem stack_new_regions_disjoint_witness :
    (stack_new 0 0 = none ↔
        (0x200000 : Int) < 0x100000 + 0x2000 * 0 + 0x1000 * 0 + 0x1000) ∧
      (stack_new 127 1 = none ↔
        (0x200000 : Int) < 0x100000 + 0x2000 * 127 + 0x1000 * 1 + 0x1000) ∧
      ((0x101000 : Int) ≤ 0x200000 - 0x1000 ∨ (0x200000 : Int) ≤ 0x101000 - 0x1000) ∧
        ((0x100000 : Int) ≤ 0x101000 - 0x1000 ∧ (0x101000 : Int) ≤ 0x200000) ∧
        ((0x100000 : Int) ≤ 0x200000 - 0x1000 ∧ (0x200000 : Int) ≤ 0x200000) :=
  have h := stack_new_regions_disjoint 0 0 127 1 (by decide) (by decide) (Or.inl rfl)
    (by decide) (by decide) (Or.inr rfl) (Or.inl (by decide))
  ⟨h.1, h.2.1, h.2.2 0x101000 0x200000 (by decide) (by decide)⟩

/-- C10 on the code: for every pid, in range or not, whatever the status of its
slot, `do_wait` calls `condition_wait` on `pcb[pid].condition` and the value it
returns afterwards is `0`; no path returns an error code without blocking. -/
theorem do_wait_blocks_unconditionally (pid : Int) :
    wait_call.condition_wait pid ∈ (do_wait pid).1 ∧ (do_wait pid).2 = 0 := by
  simp [do_wait]

/-- C11 on the code: the macro `MAX` yields the smaller of its two arguments.  For
all integers `a` and `b`, `MAX(a, b)` is `min a b`, so it is at most `a` and at
most `b`; `MAX(1, 2)` is `1`, which is below its second argument. -/
theorem MAX_yields_the_smaller (a b : Int) :
    MAX a b = min a b ∧ MAX a b ≤ a ∧ MAX a b ≤ b ∧ MAX 1 2 = 1 ∧ ¬ (2 ≤ MAX 1 2) := by
  have h : MAX a b = min a b := by
    unfold MAX
    split_ifs with hab
    · exact (min_eq_left (le_of_lt hab)).symm
    · exact (min_eq_right (not_lt.mp hab)).symm
  refine ⟨h, ?_, ?_, by decide, by decide⟩
  · rw [h]; exact min_le_left a b
  · rw [h]; exact min_le_right a b

end Project4
